import Mathlib

/-!
Verification of the FrameScript project initializer CLI (src/cli.ts).

The development shallowly embeds the release-selection logic
(pickLatestReleaseWithBinZip), the HTTP helpers (requestJson,
downloadToFile, fetchLatestTag, fetchLatestBinaryZipUrl) and the
download-then-extract sequence of main.

Modelling conventions:
- optional JS fields become Option;
- JS Date.parse is an abstract parameter dateParse : String → Option Int,
  where none models NaN; the JS fact Date.parse of the empty string being
  NaN appears as an explicit hypothesis where needed;
- JS truthiness of strings (empty string falsy) and of numbers
  (0 and NaN falsy) is modelled explicitly (jsTruthyStr, jsOrNum);
- network effects are modelled by a deterministic world: a total map from
  URL to response; the file write of downloadToFile is modelled by
  returning the content written.
-/

/-- The asset record of a release, from the inline type at cli.ts lines 51-57. -/
structure Asset where
  name : Option String
  browser_download_url : Option String
deriving DecidableEq, Repr

/-- A release record, from the Release type at cli.ts lines 51-57. -/
structure Release where
  name : Option String
  created_at : Option String
  published_at : Option String
  draft : Option Bool
  assets : Option (List Asset)
deriving DecidableEq, Repr

/-- The LatestRelease type at cli.ts lines 47-49. -/
structure LatestRelease where
  tag_name : Option String
deriving DecidableEq, Repr

/-- The result shape of pickLatestReleaseWithBinZip (cli.ts line 155). -/
structure SelectionResult where
  release : Release
  assetUrl : String
deriving DecidableEq, Repr

/-- JS truthiness of an optional string: undefined and the empty string are falsy. -/
def jsTruthyStr : Option String → Bool
  | none => false
  | some s => s != ""

/-- JS a || b on numbers, where none models NaN: a is kept unless it is falsy (NaN or 0). -/
def jsOrNum (a b : Option Int) : Option Int :=
  match a with
  | none => b
  | some n => if n = 0 then b else some n

/-- Model of the JS String.prototype.toLowerCase for the ASCII fragment:
lowercase every character. -/
def jsToLowerCase (s : String) : String :=
  String.mk (s.data.map Char.toLower)

/-- The asset predicate of cli.ts line 164:
(entry.name ?? "").toLowerCase() === "bin.zip". -/
def assetMatchesBinZip (entry : Asset) : Bool :=
  jsToLowerCase (entry.name.getD "") == "bin.zip"

/-- Lines 163-169: the first matching asset's browser_download_url, with the
JS falsy check (undefined or empty string url means the release is skipped). -/
def binZipUrl (release : Release) : Option String :=
  match release.assets.bind (fun l => l.find? assetMatchesBinZip) with
  | none => none
  | some asset =>
    match asset.browser_download_url with
    | none => none
    | some url => if url = "" then none else some url

/-- Lines 171-174: the candidate timestamp
Date.parse(release.published_at ?? "") || Date.parse(release.created_at ?? "") || 0. -/
def effTime (dateParse : String → Option Int) (release : Release) : Int :=
  match jsOrNum (dateParse (release.published_at.getD ""))
      (dateParse (release.created_at.getD "")) with
  | none => 0
  | some t => t

/-- Lines 175-180: the timestamp recomputed for the incumbent best candidate:
latest?.release.published_at || latest?.release.created_at
  ? Date.parse(latest?.release.published_at ?? latest?.release.created_at ?? "") || 0
  : 0. -/
def latestTimeOf (dateParse : String → Option Int) (latest : Option SelectionResult) : Int :=
  let pub := latest.bind (fun l => l.release.published_at)
  let cre := latest.bind (fun l => l.release.created_at)
  if jsTruthyStr pub = true ∨ jsTruthyStr cre = true then
    match dateParse (match pub with
      | some s => s
      | none => match cre with
        | some s => s
        | none => "") with
    | none => 0
    | some t => t
  else 0

/-- The loop body of pickLatestReleaseWithBinZip (cli.ts lines 158-185),
written as structural recursion over the release list with the mutable
variable latest passed as an accumulator. -/
def pickLatestGo (dateParse : String → Option Int) (latest : Option SelectionResult) :
    List Release → Option SelectionResult
  | [] => latest
  | release :: rest =>
    if release.draft.getD false = true then
      pickLatestGo dateParse latest rest
    else
      match binZipUrl release with
      | none => pickLatestGo dateParse latest rest
      | some url =>
        let time := effTime dateParse release
        let latestTime := latestTimeOf dateParse latest
        if latest.isNone = true ∨ time > latestTime then
          pickLatestGo dateParse (some { release := release, assetUrl := url }) rest
        else
          pickLatestGo dateParse latest rest

/-- pickLatestReleaseWithBinZip, cli.ts lines 153-188. -/
def pickLatestReleaseWithBinZip (dateParse : String → Option Int)
    (releases : List Release) : Option SelectionResult :=
  pickLatestGo dateParse none releases

/-- A concrete Date.parse fragment covering the date strings used in the
examples; real JS values: Date.parse("2024-01-01") = 1704067200000,
Date.parse("2024-06-01") = 1717200000000, Date.parse("2024-12-01") =
1733011200000, Date.parse("1970-01-01T00:00:00Z") = 0; everything else,
including the empty string, is NaN. -/
def exDateParse (s : String) : Option Int :=
  if s = "2024-01-01" then some 1704067200000
  else if s = "2024-06-01" then some 1717200000000
  else if s = "2024-12-01" then some 1733011200000
  else if s = "1970-01-01T00:00:00Z" then some 0
  else none

-- Spec example releases (spec.md section 8).
def exV1 : Release :=
  { name := some "v1", created_at := none, published_at := some "2024-01-01",
    draft := none,
    assets := some [{ name := some "bin.zip", browser_download_url := some "A" }] }

def exV2 : Release :=
  { name := some "v2", created_at := none, published_at := some "2024-06-01",
    draft := none,
    assets := some [{ name := some "bin.zip", browser_download_url := some "B" }] }

def exV3 : Release :=
  { name := some "v3", created_at := none, published_at := some "2024-12-01",
    draft := some true,
    assets := some [{ name := some "bin.zip", browser_download_url := some "C" }] }

/-! ## HTTP layer -/

/-- The failure kinds raised by the CLI pipeline: request failed with a
status code (cli.ts 86, 132), a JSON.parse failure (cli.ts 95-97), and the
not-found throws (cli.ts 148, 194). -/
inductive CliError where
  | httpError (status : Nat)
  | parseError (body : String)
  | notFound (message : String)
deriving DecidableEq, Repr

/-- The observable part of an HTTP response: res.statusCode (optional in
Node), the Location header, and the body chunks delivered by data events. -/
structure HttpResponse where
  statusCode : Option Nat
  location : Option String
  chunks : List String
deriving DecidableEq, Repr

/-- A deterministic network world: the response served for each URL, and
the URL resolution new URL(location, base).toString(). -/
structure HttpWorld where
  server : String → HttpResponse
  resolve : String → String → String

/-- cli.ts lines 60 and 111: const maxRedirects = 5. -/
def maxRedirects : Nat := 5

/-- requestJson, cli.ts lines 59-104: follow a 3xx response with a truthy
Location header while redirects < maxRedirects; otherwise reject non-2xx
with the status code; otherwise concatenate the chunks and JSON.parse them. -/
def requestJson {α : Type} (w : HttpWorld) (jsonParse : String → Option α)
    (url : String) (redirects : Nat) : Except CliError α :=
  let res := w.server url
  let status := res.statusCode.getD 0
  if h : 300 ≤ status ∧ status < 400 ∧ jsTruthyStr res.location = true ∧
      redirects < maxRedirects then
    requestJson w jsonParse (w.resolve (res.location.getD "") url) (redirects + 1)
  else if status < 200 ∨ 300 ≤ status then
    Except.error (CliError.httpError status)
  else
    match jsonParse (String.join res.chunks) with
    | some v => Except.ok v
    | none => Except.error (CliError.parseError (String.join res.chunks))
termination_by maxRedirects - redirects
decreasing_by
  omega

/-- downloadToFile, cli.ts lines 106-142: same redirect and status logic
as requestJson; a 2xx body is streamed to filePath, modelled by returning
the content written there. -/
def downloadToFile (w : HttpWorld) (url : String) (filePath : String)
    (redirects : Nat) : Except CliError String :=
  let res := w.server url
  let status := res.statusCode.getD 0
  if h : 300 ≤ status ∧ status < 400 ∧ jsTruthyStr res.location = true ∧
      redirects < maxRedirects then
    downloadToFile w (w.resolve (res.location.getD "") url) filePath (redirects + 1)
  else if status < 200 ∨ 300 ≤ status then
    Except.error (CliError.httpError status)
  else
    Except.ok (String.join res.chunks)
termination_by maxRedirects - redirects
decreasing_by
  omega

/-- cli.ts line 44. -/
def LATEST_RELEASE_URL : String :=
  "https://api.github.com/repos/frame-script/FrameScript/releases/latest"

/-- cli.ts line 45. -/
def RELEASES_URL : String :=
  "https://api.github.com/repos/frame-script/FrameScript/releases?per_page=100"

/-- fetchLatestTag, cli.ts lines 144-151; the JS guard if (!tag) is falsy
for both an absent tag_name and an empty-string tag_name. -/
def fetchLatestTag (w : HttpWorld) (jsonParse : String → Option LatestRelease) :
    Except CliError String :=
  match requestJson w jsonParse LATEST_RELEASE_URL 0 with
  | Except.error e => Except.error e
  | Except.ok data =>
    match data.tag_name with
    | none => Except.error (CliError.notFound "Latest release tag not found.")
    | some tag =>
      if tag = "" then Except.error (CliError.notFound "Latest release tag not found.")
      else Except.ok tag

/-- fetchLatestBinaryZipUrl, cli.ts lines 190-197. -/
def fetchLatestBinaryZipUrl (w : HttpWorld)
    (jsonParse : String → Option (List Release))
    (dateParse : String → Option Int) : Except CliError String :=
  match requestJson w jsonParse RELEASES_URL 0 with
  | Except.error e => Except.error e
  | Except.ok releases =>
    match pickLatestReleaseWithBinZip dateParse releases with
    | none => Except.error (CliError.notFound "Release with bin.zip not found.")
    | some latest => Except.ok latest.assetUrl

/-! ## The download-then-extract sequence of main (cli.ts lines 253-267) -/

/-- cli.ts line 254: the name of the template archive inside the temporary
directory. -/
def tarFileName : String := "template.tgz"

/-- cli.ts line 255: the name of the binary archive inside the temporary
directory. -/
def zipFileName : String := "bin.zip"

/-- Abstract filesystem state for the scaffold sequence: whether the
temporary download directory exists and which files it holds, whether the
target project directory has been created, and whether each archive has
been extracted into it. -/
structure ScaffoldState where
  tmpDirExists : Bool
  tmpFiles : List (String × String)
  targetDirExists : Bool
  templateExtracted : Bool
  binExtracted : Bool
deriving DecidableEq, Repr

/-- cli.ts lines 253-267: download both archives into the temporary
directory; only when both succeed create the target directory and extract
into it; the finally clause removes the temporary directory in every case.
The external extraction steps (tar.x, unzipper, chmod) are modelled as
flags on the state. Returns the final filesystem state and the error, if
any, that escaped the try block. -/
def scaffoldArchives (w : HttpWorld) (tarballUrl binaryZipUrl : String) :
    ScaffoldState × Option CliError :=
  let s0 : ScaffoldState :=
    { tmpDirExists := true, tmpFiles := [], targetDirExists := false,
      templateExtracted := false, binExtracted := false }
  let body : ScaffoldState × Option CliError :=
    match downloadToFile w tarballUrl tarFileName 0 with
    | Except.error e => (s0, some e)
    | Except.ok tarContent =>
      let s1 := { s0 with tmpFiles := s0.tmpFiles ++ [(tarFileName, tarContent)] }
      match downloadToFile w binaryZipUrl zipFileName 0 with
      | Except.error e => (s1, some e)
      | Except.ok zipContent =>
        let s2 := { s1 with tmpFiles := s1.tmpFiles ++ [(zipFileName, zipContent)] }
        let s3 := { s2 with targetDirExists := true, templateExtracted := true,
                            binExtracted := true }
        (s3, none)
  ({ body.1 with tmpDirExists := false, tmpFiles := [] }, body.2)

/-! ## Specification-side definitions -/

/-- Effective timestamp exactly as the claim words it: publishedAt when
that field is present, else createdAt when present, else zero, with a
malformed (unparsable) field treated as the earliest-possible time. -/
def specEffTime (dateParse : String → Option Int) (release : Release) : Int :=
  match release.published_at with
  | some s => (dateParse s).getD 0
  | none =>
    match release.created_at with
    | some s => (dateParse s).getD 0
    | none => 0

/-- A date field contributes a timestamp to the fallback chain only when
it is present, parses, and does not parse to exactly the epoch. -/
def nonzeroTime (dateParse : String → Option Int) (field : Option String) : Option Int :=
  match field.bind dateParse with
  | none => none
  | some t => if t = 0 then none else some t

/-- The amended effective timestamp: the fallback chain publishedAt →
createdAt → epoch where a field falls through when it is absent, malformed,
or parses to exactly the epoch (JS falsy semantics of the || chain). -/
def fallbackTime (dateParse : String → Option Int) (release : Release) : Int :=
  (nonzeroTime dateParse release.published_at).getD
    ((nonzeroTime dateParse release.created_at).getD 0)

/-! ## Further concrete inputs used as witnesses and counterexamples -/

/-- Index 0 of the selection counterexample: published 2024-01-01, url B. -/
def cexV2 : Release :=
  { name := some "v2", created_at := none, published_at := some "2024-01-01",
    draft := none,
    assets := some [{ name := some "bin.zip", browser_download_url := some "B" }] }

/-- Index 1 of the selection counterexample: published exactly at the epoch
(a well-formed date whose numeric value is 0), created 2024-06-01, url A;
its candidate timestamp is 1717200000000 but the incumbent recomputation
of cli.ts lines 175-180 values it at 0. -/
def cexV1 : Release :=
  { name := some "v1", created_at := some "2024-06-01",
    published_at := some "1970-01-01T00:00:00Z", draft := none,
    assets := some [{ name := some "bin.zip", browser_download_url := some "A" }] }

/-- Index 2 of the selection counterexample: published 2024-01-01, url B2;
identical effective timestamp to the index 0 release. -/
def cexV4 : Release :=
  { name := some "v4", created_at := none, published_at := some "2024-01-01",
    draft := none,
    assets := some [{ name := some "bin.zip", browser_download_url := some "B2" }] }

/-- A release whose published_at is a well-formed date equal to the epoch
and whose created_at is a later date. -/
def cexEpoch : Release :=
  { name := some "r", created_at := some "2024-06-01",
    published_at := some "1970-01-01T00:00:00Z", draft := none, assets := none }

/-- A world whose every response is a 302 redirect with a Location header. -/
def loopWorld : HttpWorld :=
  { server := fun _ => { statusCode := some 302, location := some "next", chunks := [] },
    resolve := fun loc _ => loc }

/-- A world whose every response is a 404 with no Location header. -/
def world404 : HttpWorld :=
  { server := fun _ => { statusCode := some 404, location := none, chunks := [] },
    resolve := fun loc _ => loc }

/-- A world whose every response is a 500 with no Location header. -/
def world500 : HttpWorld :=
  { server := fun _ => { statusCode := some 500, location := none, chunks := [] },
    resolve := fun loc _ => loc }

/-- A world whose every response is a 200 carrying the body chunks
alpha, beta. -/
def world200 : HttpWorld :=
  { server := fun _ => { statusCode := some 200, location := none, chunks := ["alpha", "beta"] },
    resolve := fun loc _ => loc }

/-- A JSON decoder accepting exactly the concatenated body of world200. -/
def parse200 : String → Option Nat :=
  fun s => if s = "alphabeta" then some 7 else none

/-- A world serving a 200 response with body payload. -/
def payloadWorld : HttpWorld :=
  { server := fun _ => { statusCode := some 200, location := none, chunks := ["payload"] },
    resolve := fun loc _ => loc }

/-- A decoder reading the payload body as a latest-release record whose
tag_name is the empty string. -/
def emptyTagParse : String → Option LatestRelease :=
  fun s => if s = "payload" then some { tag_name := some "" } else none

/-- A decoder reading the payload body as a latest-release record whose
tag_name is v9.9. -/
def goodTagParse : String → Option LatestRelease :=
  fun s => if s = "payload" then some { tag_name := some "v9.9" } else none

/-- A matching asset that carries no download URL. -/
def cexNoUrlAsset : Asset := { name := some "bin.zip", browser_download_url := none }

/-- A matching asset that does carry a download URL. -/
def cexUrlAsset : Asset := { name := some "BIN.zip", browser_download_url := some "X" }

/-- A release whose first matching asset lacks a download URL while a later
asset also matches and has one. -/
def cexNoUrlRelease : Release :=
  { name := some "nu", created_at := none, published_at := some "2024-06-01",
    draft := none, assets := some [cexNoUrlAsset, cexUrlAsset] }

/-! ## Theorems -/

/-- One-step unfolding of requestJson. -/
theorem requestJson_step {α : Type} (w : HttpWorld) (jsonParse : String → Option α)
    (url : String) (redirects : Nat) :
    requestJson w jsonParse url redirects =
    (if 300 ≤ (w.server url).statusCode.getD 0 ∧ (w.server url).statusCode.getD 0 < 400 ∧
        jsTruthyStr (w.server url).location = true ∧ redirects < maxRedirects then
       requestJson w jsonParse (w.resolve ((w.server url).location.getD "") url) (redirects + 1)
     else if (w.server url).statusCode.getD 0 < 200 ∨ 300 ≤ (w.server url).statusCode.getD 0 then
       Except.error (CliError.httpError ((w.server url).statusCode.getD 0))
     else
       match jsonParse (String.join (w.server url).chunks) with
       | some v => Except.ok v
       | none => Except.error (CliError.parseError (String.join (w.server url).chunks))) := by
  rw [requestJson]
  simp only [dite_eq_ite]

/-- One-step unfolding of downloadToFile. -/
theorem downloadToFile_step (w : HttpWorld) (url : String) (filePath : String)
    (redirects : Nat) :
    downloadToFile w url filePath redirects =
    (if 300 ≤ (w.server url).statusCode.getD 0 ∧ (w.server url).statusCode.getD 0 < 400 ∧
        jsTruthyStr (w.server url).location = true ∧ redirects < maxRedirects then
       downloadToFile w (w.resolve ((w.server url).location.getD "") url) filePath (redirects + 1)
     else if (w.server url).statusCode.getD 0 < 200 ∨ 300 ≤ (w.server url).statusCode.getD 0 then
       Except.error (CliError.httpError ((w.server url).statusCode.getD 0))
     else
       Except.ok (String.join (w.server url).chunks)) := by
  rw [downloadToFile]
  simp only [dite_eq_ite]

example : pickLatestReleaseWithBinZip exDateParse [exV1, exV2, exV3] =
    some { release := exV2, assetUrl := "B" } := by decide

/-- A successful asset match exposes a name whose lowercase form is
bin.zip. -/
theorem assetMatches_name {a : Asset} (h : assetMatchesBinZip a = true) :
    ∃ s, a.name = some s ∧ jsToLowerCase s = "bin.zip" := by
  unfold assetMatchesBinZip at h
  cases hn : a.name with
  | none => rw [hn] at h; exact absurd h (by decide)
  | some s =>
    rw [hn] at h
    exact ⟨s, rfl, by simpa using h⟩

/-- When binZipUrl succeeds, the release has an asset list containing a
matching asset carrying exactly that nonempty URL. -/
theorem binZipUrl_eq_some {release : Release} {url : String}
    (h : binZipUrl release = some url) :
    ∃ l, release.assets = some l ∧ ∃ a ∈ l, assetMatchesBinZip a = true ∧
      a.browser_download_url = some url ∧ url ≠ "" := by
  unfold binZipUrl at h
  split at h
  · exact absurd h (by simp)
  · next asset hfind =>
    split at h
    · exact absurd h (by simp)
    · next u hurl =>
      split at h
      · exact absurd h (by simp)
      · next hu =>
        injection h with h2
        subst h2
        obtain ⟨l, hl⟩ : ∃ l, release.assets = some l := by
          cases ha : release.assets with
          | none => rw [ha] at hfind; exact absurd hfind (by simp)
          | some l => exact ⟨l, rfl⟩
        rw [hl] at hfind
        simp only [Option.some_bind] at hfind
        exact ⟨l, hl, asset, List.mem_of_find?_eq_some hfind,
          List.find?_some hfind, hurl, hu⟩

/-- Fold invariant: every selection the loop can return is a non-draft
release with a case-insensitively matching asset. -/
theorem pickLatestGo_good (dateParse : String → Option Int) :
    ∀ (rs : List Release) (acc : Option SelectionResult),
      (∀ res, acc = some res →
        res.release.draft ≠ some true ∧
        ∃ l, res.release.assets = some l ∧
          ∃ a ∈ l, ∃ s, a.name = some s ∧ jsToLowerCase s = "bin.zip") →
      ∀ res, pickLatestGo dateParse acc rs = some res →
        res.release.draft ≠ some true ∧
        ∃ l, res.release.assets = some l ∧
          ∃ a ∈ l, ∃ s, a.name = some s ∧ jsToLowerCase s = "bin.zip" := by
  intro rs
  induction rs with
  | nil =>
    intro acc hacc res h
    exact hacc res (by simpa [pickLatestGo] using h)
  | cons release rest ih =>
    intro acc hacc res h
    rw [pickLatestGo] at h
    split at h
    · exact ih acc hacc res h
    · next hdraft =>
      split at h
      · exact ih acc hacc res h
      · next url hurl =>
        dsimp only [] at h
        split at h
        · refine ih _ ?_ res h
          intro res2 hres2
          injection hres2 with hres2
          subst hres2
          constructor
          · show release.draft ≠ some true
            intro hcontra
            exact hdraft (by rw [hcontra]; rfl)
          · obtain ⟨l, hl, a, hmem, hmatch, -, -⟩ := binZipUrl_eq_some hurl
            obtain ⟨s, hs, hlow⟩ := assetMatches_name hmatch
            exact ⟨l, hl, a, hmem, s, hs, hlow⟩
        · exact ih acc hacc res h

/-- find? on a list whose prefix has no match returns the first matching
element. -/
theorem find?_first {α : Type} (p : α → Bool) :
    ∀ (pre : List α) (a : α) (post : List α),
      (∀ x ∈ pre, p x = false) → p a = true →
      (pre ++ a :: post).find? p = some a := by
  intro pre
  induction pre with
  | nil =>
    intro a post hpre ha
    simp [List.find?_cons, ha]
  | cons x xs ih =>
    intro a post hpre ha
    have hx : p x = false := hpre x (by simp)
    simp only [List.cons_append, List.find?_cons, hx]
    exact ih a post (fun y hy => hpre y (by simp [hy])) ha

/-- C1: the selection does NOT always return the qualifying release with the
maximum effective timestamp, and a later release can replace an equal-timestamp
earlier one. On the list [cexV2, cexV1, cexV4] the code returns cexV4 (index 2,
effective timestamp 1704067200000) although cexV1 qualifies (non-draft, matching
asset) with the strictly greater effective timestamp 1717200000000, and although
cexV2 at index 0 has the same effective timestamp as cexV4 under every reading
of the fallback rule (both specEffTime and the code's own candidate formula).
The cause is the incumbent recomputation of cli.ts lines 175-180, which values
cexV1 at 0 because its published_at parses to the falsy number 0. -/
theorem pick_returns_non_maximal_release :
    pickLatestReleaseWithBinZip exDateParse [cexV2, cexV1, cexV4] =
      some { release := cexV4, assetUrl := "B2" } ∧
    cexV1.draft.getD false = false ∧
    binZipUrl cexV1 = some "A" ∧
    effTime exDateParse cexV1 = 1717200000000 ∧
    fallbackTime exDateParse cexV1 = 1717200000000 ∧
    effTime exDateParse cexV4 = 1704067200000 ∧
    effTime exDateParse cexV2 = 1704067200000 ∧
    specEffTime exDateParse cexV2 = 1704067200000 ∧
    specEffTime exDateParse cexV4 = 1704067200000 := by decide

/-- C2 counterexample: for a release whose published_at is present and
well-formed but equal to the epoch (parses to 0) and whose created_at is
2024-06-01, the claimed effective timestamp (publishedAt when present) is 0,
but the code computes 1717200000000 because the JS || chain treats the
number 0 as falsy and falls through to created_at. -/
theorem effTime_spec_counterexample :
    effTime exDateParse cexEpoch = 1717200000000 ∧
    specEffTime exDateParse cexEpoch = 0 ∧
    effTime exDateParse cexEpoch ≠ specEffTime exDateParse cexEpoch := by decide

/-- C2 amended: the effective timestamp follows the fallback chain
publishedAt → createdAt → epoch, where a field falls through when it is
absent, malformed, or parses to exactly the epoch; missing or malformed
fields never make the computation fail (it is total). Uses the JS fact that
Date.parse of the empty string is NaN. -/
theorem effTime_fallback_chain (dateParse : String → Option Int) (release : Release)
    (hEmpty : dateParse "" = none) :
    effTime dateParse release = fallbackTime dateParse release := by
  unfold effTime fallbackTime nonzeroTime jsOrNum
  cases hp : release.published_at with
  | none =>
    cases hc : release.created_at with
    | none => simp [hEmpty]
    | some sc =>
      cases hcp : dateParse sc with
      | none => simp [hEmpty, hcp]
      | some tc =>
        by_cases htc : tc = 0 <;> simp [hEmpty, hcp, htc]
  | some sp =>
    cases hpp : dateParse sp with
    | none =>
      cases hc : release.created_at with
      | none => simp [hEmpty, hpp]
      | some sc =>
        cases hcp : dateParse sc with
        | none => simp [hpp, hcp]
        | some tc =>
          by_cases htc : tc = 0 <;> simp [hpp, hcp, htc]
    | some tp =>
      by_cases htp : tp = 0
      · cases hc : release.created_at with
        | none => simp [hEmpty, hpp, htp]
        | some sc =>
          cases hcp : dateParse sc with
          | none => simp [hpp, hcp, htp]
          | some tc =>
            by_cases htc : tc = 0 <;> simp [hpp, hcp, htp, htc]
      · simp [hpp, htp]

/-- Witness for the amended C2 theorem at a concrete parser and release. -/
theorem effTime_fallback_chain_witness :
    exDateParse "" = none ∧
    effTime exDateParse cexEpoch = fallbackTime exDateParse cexEpoch :=
  ⟨by decide, effTime_fallback_chain exDateParse cexEpoch (by decide)⟩

/-- C3: whenever the selection produces a result, the chosen release is not
a draft and holds at least one asset whose name lowercases to bin.zip; hence
a draft release, or a release lacking the target asset, is never selected. -/
theorem pick_selection_invariant (dateParse : String → Option Int)
    (releases : List Release) (res : SelectionResult)
    (h : pickLatestReleaseWithBinZip dateParse releases = some res) :
    res.release.draft ≠ some true ∧
    ∃ l, res.release.assets = some l ∧
      ∃ a ∈ l, ∃ s, a.name = some s ∧ jsToLowerCase s = "bin.zip" :=
  pickLatestGo_good dateParse releases none (fun _ h2 => nomatch h2) res h

/-- Witness for C3 at the concrete example list, whose selection is exV2. -/
theorem pick_selection_invariant_witness :
    exV2.draft ≠ some true ∧
    ∃ l, exV2.assets = some l ∧
      ∃ a ∈ l, ∃ s, a.name = some s ∧ jsToLowerCase s = "bin.zip" :=
  pick_selection_invariant exDateParse [exV1, exV2, exV3]
    { release := exV2, assetUrl := "B" } (by decide)

/-- C4: the asset matcher accepts exactly the assets whose name lowercases
to bin.zip; in particular the asset named Bin.ZIP matches. -/
theorem assetMatch_case_insensitive :
    (∀ a : Asset, assetMatchesBinZip a = true ↔
      ∃ s, a.name = some s ∧ jsToLowerCase s = "bin.zip") ∧
    assetMatchesBinZip { name := some "Bin.ZIP", browser_download_url := none } = true := by
  constructor
  · intro a
    constructor
    · exact assetMatches_name
    · rintro ⟨s, hs, hlow⟩
      unfold assetMatchesBinZip
      rw [hs]
      simp [hlow]
  · decide




/-- C5: redirect following is bounded. A 3xx response with a truthy Location
header is followed only while the hop count is below maxRedirects; once the
hop count reaches the maximum a further redirect response makes both HTTP
operations fail with an HttpError rather than loop, so against a server that
always redirects both operations terminate with an HttpError carrying a 3xx
status, from any starting hop count. -/
theorem redirects_bounded {α : Type} (w : HttpWorld) (jsonParse : String → Option α)
    (filePath : String) :
    (∀ url redirects, maxRedirects ≤ redirects →
       300 ≤ (w.server url).statusCode.getD 0 →
       (w.server url).statusCode.getD 0 < 400 →
       jsTruthyStr (w.server url).location = true →
       requestJson w jsonParse url redirects =
         Except.error (CliError.httpError ((w.server url).statusCode.getD 0)) ∧
       downloadToFile w url filePath redirects =
         Except.error (CliError.httpError ((w.server url).statusCode.getD 0))) ∧
    ((∀ u, 300 ≤ (w.server u).statusCode.getD 0 ∧ (w.server u).statusCode.getD 0 < 400 ∧
        jsTruthyStr (w.server u).location = true) →
     ∀ url redirects,
       (∃ s, requestJson w jsonParse url redirects = Except.error (CliError.httpError s) ∧
          300 ≤ s ∧ s < 400) ∧
       (∃ s, downloadToFile w url filePath redirects = Except.error (CliError.httpError s) ∧
          300 ≤ s ∧ s < 400)) := by
  have atMax : ∀ url r, maxRedirects ≤ r →
      300 ≤ (w.server url).statusCode.getD 0 →
      (w.server url).statusCode.getD 0 < 400 →
      jsTruthyStr (w.server url).location = true →
      requestJson w jsonParse url r =
        Except.error (CliError.httpError ((w.server url).statusCode.getD 0)) ∧
      downloadToFile w url filePath r =
        Except.error (CliError.httpError ((w.server url).statusCode.getD 0)) := by
    intro url r hr h3 h4 hloc
    have hcond : ¬(300 ≤ (w.server url).statusCode.getD 0 ∧
        (w.server url).statusCode.getD 0 < 400 ∧
        jsTruthyStr (w.server url).location = true ∧ r < maxRedirects) :=
      fun hc => absurd hc.2.2.2 (by omega)
    have hterm : (w.server url).statusCode.getD 0 < 200 ∨
        300 ≤ (w.server url).statusCode.getD 0 := Or.inr h3
    constructor
    · rw [requestJson_step, if_neg hcond, if_pos hterm]
    · rw [downloadToFile_step, if_neg hcond, if_pos hterm]
  constructor
  · exact atMax
  · intro hw
    intro url redirects
    have main : ∀ k url r, maxRedirects - r ≤ k →
        (∃ s, requestJson w jsonParse url r = Except.error (CliError.httpError s) ∧
           300 ≤ s ∧ s < 400) ∧
        (∃ s, downloadToFile w url filePath r = Except.error (CliError.httpError s) ∧
           300 ≤ s ∧ s < 400) := by
      intro k
      induction k with
      | zero =>
        intro url r hk
        obtain ⟨h3, h4, hloc⟩ := hw url
        obtain ⟨e1, e2⟩ := atMax url r (by omega) h3 h4 hloc
        exact ⟨⟨_, e1, h3, h4⟩, ⟨_, e2, h3, h4⟩⟩
      | succ k ih =>
        intro url r hk
        obtain ⟨h3, h4, hloc⟩ := hw url
        by_cases hr : r < maxRedirects
        · have hcond : 300 ≤ (w.server url).statusCode.getD 0 ∧
              (w.server url).statusCode.getD 0 < 400 ∧
              jsTruthyStr (w.server url).location = true ∧ r < maxRedirects :=
            ⟨h3, h4, hloc, hr⟩
          have e1 : requestJson w jsonParse url r =
              requestJson w jsonParse (w.resolve ((w.server url).location.getD "") url)
                (r + 1) := by
            rw [requestJson_step, if_pos hcond]
          have e2 : downloadToFile w url filePath r =
              downloadToFile w (w.resolve ((w.server url).location.getD "") url) filePath
                (r + 1) := by
            rw [downloadToFile_step, if_pos hcond]
          obtain ⟨ha, hb⟩ := ih (w.resolve ((w.server url).location.getD "") url)
            (r + 1) (by omega)
          exact ⟨by rw [e1]; exact ha, by rw [e2]; exact hb⟩
        · obtain ⟨f1, f2⟩ := atMax url r (by omega) h3 h4 hloc
          exact ⟨⟨_, f1, h3, h4⟩, ⟨_, f2, h3, h4⟩⟩
    exact main maxRedirects url redirects (by omega)

/-- Witness for C5: against the always-redirecting world at hop count 5
both operations fail with the redirect status 302. -/
theorem redirects_bounded_witness :
    requestJson loopWorld (fun _ => (none : Option Nat)) "start" 5 =
      Except.error (CliError.httpError 302) ∧
    downloadToFile loopWorld "start" "file" 5 =
      Except.error (CliError.httpError 302) := by
  have h := (redirects_bounded loopWorld (fun _ => (none : Option Nat)) "file").1
    "start" 5 (by decide) (by decide) (by decide) (by decide)
  exact h

/-- C6: a terminal response that is neither 2xx nor a valid redirect makes
both HTTP operations fail with an HttpError carrying exactly the response
status (with the Node statusCode defaulting of undefined to 0). -/
theorem non2xx_nonredirect_httpError {α : Type} (w : HttpWorld)
    (jsonParse : String → Option α) (url filePath : String) (redirects : Nat)
    (hnot2xx : ¬(200 ≤ (w.server url).statusCode.getD 0 ∧
        (w.server url).statusCode.getD 0 < 300))
    (hnotRedir : ¬(300 ≤ (w.server url).statusCode.getD 0 ∧
        (w.server url).statusCode.getD 0 < 400 ∧
        jsTruthyStr (w.server url).location = true ∧ redirects < maxRedirects)) :
    requestJson w jsonParse url redirects =
      Except.error (CliError.httpError ((w.server url).statusCode.getD 0)) ∧
    downloadToFile w url filePath redirects =
      Except.error (CliError.httpError ((w.server url).statusCode.getD 0)) := by
  have hterm : (w.server url).statusCode.getD 0 < 200 ∨
      300 ≤ (w.server url).statusCode.getD 0 := by omega
  constructor
  · rw [requestJson_step, if_neg hnotRedir, if_pos hterm]
  · rw [downloadToFile_step, if_neg hnotRedir, if_pos hterm]

/-- Witness for C6 at a concrete 404 world. -/
theorem non2xx_nonredirect_httpError_witness :
    requestJson world404 (fun _ => (none : Option Nat)) "u" 0 =
      Except.error (CliError.httpError 404) ∧
    downloadToFile world404 "u" "f" 0 =
      Except.error (CliError.httpError 404) :=
  non2xx_nonredirect_httpError world404 (fun _ => (none : Option Nat)) "u" "f" 0
    (by decide) (by decide)

/-- C7 counterexample: a latest-release response that does contain a tag,
namely the empty string, still makes fetchLatestTag fail with NotFoundError,
because the JS guard tests truthiness rather than presence. -/
theorem fetchLatestTag_empty_tag_counterexample :
    requestJson payloadWorld emptyTagParse LATEST_RELEASE_URL 0 =
      Except.ok { tag_name := some "" } ∧
    ({ tag_name := some "" } : LatestRelease).tag_name = some "" ∧
    fetchLatestTag payloadWorld emptyTagParse =
      Except.error (CliError.notFound "Latest release tag not found.") := by
  have h1 : requestJson payloadWorld emptyTagParse LATEST_RELEASE_URL 0 =
      Except.ok { tag_name := some "" } := by
    rw [requestJson_step, if_neg (by decide), if_neg (by decide)]
    rfl
  refine ⟨h1, rfl, ?_⟩
  unfold fetchLatestTag
  rw [h1]
  rfl

/-- C7 amended: given a successful latest-release response, fetchLatestTag
returns the tag when it is present and nonempty, and fails with
NotFoundError exactly when the response has no tag or an empty tag. -/
theorem fetchLatestTag_tag_behavior (w : HttpWorld)
    (jsonParse : String → Option LatestRelease) (data : LatestRelease)
    (h : requestJson w jsonParse LATEST_RELEASE_URL 0 = Except.ok data) :
    (∀ t, data.tag_name = some t → t ≠ "" → fetchLatestTag w jsonParse = Except.ok t) ∧
    ((data.tag_name = none ∨ data.tag_name = some "") →
      fetchLatestTag w jsonParse =
        Except.error (CliError.notFound "Latest release tag not found.")) := by
  unfold fetchLatestTag
  rw [h]
  dsimp only
  constructor
  · intro t ht hne
    rw [ht]
    simp [hne]
  · rintro (ht | ht)
    · rw [ht]
    · rw [ht]
      simp

/-- Witness for the amended C7 theorem at a concrete world with tag v9.9. -/
theorem fetchLatestTag_tag_behavior_witness :
    fetchLatestTag payloadWorld goodTagParse = Except.ok "v9.9" := by
  have h1 : requestJson payloadWorld goodTagParse LATEST_RELEASE_URL 0 =
      Except.ok { tag_name := some "v9.9" } := by
    rw [requestJson_step, if_neg (by decide), if_neg (by decide)]
    rfl
  exact (fetchLatestTag_tag_behavior payloadWorld goodTagParse
    { tag_name := some "v9.9" } h1).1 "v9.9" rfl (by decide)

/-- C8: on a 2xx terminal response requestJson parses the concatenation of
the received chunks and returns the parsed value, and fails with ParseError
carrying that body when parsing fails. -/
theorem requestJson_2xx_parse {α : Type} (w : HttpWorld) (jsonParse : String → Option α)
    (url : String) (redirects : Nat)
    (h2xx : 200 ≤ (w.server url).statusCode.getD 0 ∧
        (w.server url).statusCode.getD 0 < 300) :
    (∀ v, jsonParse (String.join (w.server url).chunks) = some v →
       requestJson w jsonParse url redirects = Except.ok v) ∧
    (jsonParse (String.join (w.server url).chunks) = none →
       requestJson w jsonParse url redirects =
         Except.error (CliError.parseError (String.join (w.server url).chunks))) := by
  have hnr : ¬(300 ≤ (w.server url).statusCode.getD 0 ∧
      (w.server url).statusCode.getD 0 < 400 ∧
      jsTruthyStr (w.server url).location = true ∧ redirects < maxRedirects) :=
    fun hc => absurd hc.1 (by omega)
  have hnt : ¬((w.server url).statusCode.getD 0 < 200 ∨
      300 ≤ (w.server url).statusCode.getD 0) := by omega
  constructor
  · intro v hv
    rw [requestJson_step, if_neg hnr, if_neg hnt, hv]
  · intro hv
    rw [requestJson_step, if_neg hnr, if_neg hnt, hv]

/-- Witness for C8: the two-chunk 200 body parses to 7. -/
theorem requestJson_2xx_parse_witness :
    requestJson world200 parse200 "u" 0 = Except.ok 7 :=
  (requestJson_2xx_parse world200 parse200 "u" 0 (by decide)).1 7 (by decide)

/-- When the first download fails, the try block aborts before the target
directory is created and the finally clause removes the temporary
directory. -/
theorem scaffoldArchives_error_first (w : HttpWorld) (tarballUrl binaryZipUrl : String)
    (e : CliError) (h1 : downloadToFile w tarballUrl tarFileName 0 = Except.error e) :
    scaffoldArchives w tarballUrl binaryZipUrl =
      ({ tmpDirExists := false, tmpFiles := [], targetDirExists := false,
         templateExtracted := false, binExtracted := false }, some e) := by
  unfold scaffoldArchives
  rw [h1]

/-- When the second download fails, the try block aborts before the target
directory is created and the finally clause removes the temporary
directory. -/
theorem scaffoldArchives_error_second (w : HttpWorld) (tarballUrl binaryZipUrl : String)
    (c : String) (e : CliError)
    (h1 : downloadToFile w tarballUrl tarFileName 0 = Except.ok c)
    (h2 : downloadToFile w binaryZipUrl zipFileName 0 = Except.error e) :
    scaffoldArchives w tarballUrl binaryZipUrl =
      ({ tmpDirExists := false, tmpFiles := [], targetDirExists := false,
         templateExtracted := false, binExtracted := false }, some e) := by
  unfold scaffoldArchives
  rw [h1, h2]

/-- When both downloads succeed the target directory is created and both
archives extracted; the temporary directory is removed afterwards. -/
theorem scaffoldArchives_ok (w : HttpWorld) (tarballUrl binaryZipUrl : String)
    (c1 c2 : String)
    (h1 : downloadToFile w tarballUrl tarFileName 0 = Except.ok c1)
    (h2 : downloadToFile w binaryZipUrl zipFileName 0 = Except.ok c2) :
    scaffoldArchives w tarballUrl binaryZipUrl =
      ({ tmpDirExists := false, tmpFiles := [], targetDirExists := true,
         templateExtracted := true, binExtracted := true }, none) := by
  unfold scaffoldArchives
  rw [h1, h2]

/-- C9: if either archive download fails, the target project directory is
never created and nothing is extracted into it, the failure propagates, and
only the temporary download directory is cleaned up; the target directory
is created only when both downloads succeed; and the temporary directory is
removed in every case. -/
theorem scaffold_target_untouched (w : HttpWorld) (tarballUrl binaryZipUrl : String) :
    (((∃ e, downloadToFile w tarballUrl tarFileName 0 = Except.error e) ∨
      (∃ e, downloadToFile w binaryZipUrl zipFileName 0 = Except.error e)) →
      (scaffoldArchives w tarballUrl binaryZipUrl).1.targetDirExists = false ∧
      (scaffoldArchives w tarballUrl binaryZipUrl).1.templateExtracted = false ∧
      (scaffoldArchives w tarballUrl binaryZipUrl).1.binExtracted = false ∧
      (scaffoldArchives w tarballUrl binaryZipUrl).2.isSome = true) ∧
    ((scaffoldArchives w tarballUrl binaryZipUrl).1.targetDirExists = true →
      (∃ c, downloadToFile w tarballUrl tarFileName 0 = Except.ok c) ∧
      (∃ c, downloadToFile w binaryZipUrl zipFileName 0 = Except.ok c)) ∧
    (scaffoldArchives w tarballUrl binaryZipUrl).1.tmpDirExists = false ∧
    (scaffoldArchives w tarballUrl binaryZipUrl).1.tmpFiles = [] := by
  cases h1 : downloadToFile w tarballUrl tarFileName 0 with
  | error e1 =>
    rw [scaffoldArchives_error_first w tarballUrl binaryZipUrl e1 h1]
    exact ⟨fun _ => ⟨rfl, rfl, rfl, rfl⟩, fun hc => absurd hc (by simp), rfl, rfl⟩
  | ok c1 =>
    cases h2 : downloadToFile w binaryZipUrl zipFileName 0 with
    | error e2 =>
      rw [scaffoldArchives_error_second w tarballUrl binaryZipUrl c1 e2 h1 h2]
      exact ⟨fun _ => ⟨rfl, rfl, rfl, rfl⟩, fun hc => absurd hc (by simp), rfl, rfl⟩
    | ok c2 =>
      rw [scaffoldArchives_ok w tarballUrl binaryZipUrl c1 c2 h1 h2]
      refine ⟨?_, fun _ => ⟨⟨c1, rfl⟩, ⟨c2, rfl⟩⟩, rfl, rfl⟩
      rintro (⟨e, he⟩ | ⟨e, he⟩) <;> exact absurd he (by simp)

/-- Witness for C9 at a world whose downloads fail with status 500. -/
theorem scaffold_target_untouched_witness :
    (scaffoldArchives world500 "turl" "burl").1.targetDirExists = false ∧
    (scaffoldArchives world500 "turl" "burl").1.templateExtracted = false ∧
    (scaffoldArchives world500 "turl" "burl").1.binExtracted = false ∧
    (scaffoldArchives world500 "turl" "burl").2.isSome = true := by
  have hfail : downloadToFile world500 "turl" tarFileName 0 =
      Except.error (CliError.httpError 500) := by
    rw [downloadToFile_step, if_neg (by decide), if_pos (by decide)]
    rfl
  exact (scaffold_target_untouched world500 "turl" "burl").1
    (Or.inl ⟨CliError.httpError 500, hfail⟩)

/-- C10: only the first matching asset of a release is consulted for a
download URL; when that asset's URL is absent or empty the whole release is
skipped by the selection loop, even if a later asset of the same release
also matches and carries a URL (the post list is arbitrary). -/
theorem first_matching_asset_only (dateParse : String → Option Int)
    (pre post : List Asset) (a : Asset) (release : Release)
    (hpre : ∀ x ∈ pre, assetMatchesBinZip x = false)
    (ha : assetMatchesBinZip a = true)
    (hurl : a.browser_download_url = none ∨ a.browser_download_url = some "")
    (hassets : release.assets = some (pre ++ a :: post)) :
    binZipUrl release = none ∧
    ∀ (acc : Option SelectionResult) (rest : List Release),
      pickLatestGo dateParse acc (release :: rest) = pickLatestGo dateParse acc rest := by
  have hfind : (pre ++ a :: post).find? assetMatchesBinZip = some a :=
    find?_first assetMatchesBinZip pre a post hpre ha
  have hnone : binZipUrl release = none := by
    unfold binZipUrl
    rw [hassets]
    simp only [Option.some_bind, hfind]
    rcases hurl with h | h <;> simp [h]
  refine ⟨hnone, ?_⟩
  intro acc rest
  rw [pickLatestGo]
  split
  · rfl
  · rw [hnone]

/-- Witness for C10: the release whose first matching asset has no URL is
skipped entirely although its second asset matches and has URL X. -/
theorem first_matching_asset_only_witness :
    binZipUrl cexNoUrlRelease = none ∧
    pickLatestGo exDateParse none [cexNoUrlRelease] = pickLatestGo exDateParse none [] := by
  have h := first_matching_asset_only exDateParse [] [cexUrlAsset] cexNoUrlAsset
    cexNoUrlRelease (by simp) (by decide) (Or.inl rfl) rfl
  exact ⟨h.1, h.2 none []⟩
